import Mathlib

/-!
Verification development for the Blinker agent backend.

This file shallowly embeds the two components the specification's testable
properties talk about:

* the MCP tool routing / connection layer (`backend/mcp_local/client.py`,
  class `MCPManager`): tool-id encoding and decoding, `execute_tool`,
  `connect_server`;
* the agent execution loop (`backend/agent/run.py`, function `run_agent`):
  billing gate, early-stop check, temporary browser-state / image-context
  message handling, model-invocation stream scanning for terminal markers,
  and the hard iteration cap.

Python strings are modelled as `List Char`, JSON values by the inductive
`Json` below, and the external collaborators (billing service, model
invocation, network transport) as explicit function parameters.  Machine
effects (network calls, handshakes) are counted explicitly so that the
"no network attempt" properties are statable.
-/

/-- A JSON value, as produced by `json.loads`.  Objects keep their fields as
an association list in insertion order (Python dicts preserve insertion
order); keys are unique in every payload we reason about. -/
inductive Json where
  | str (s : List Char)
  | num (n : Int)
  | bool (b : Bool)
  | null
  | arr (elems : List Json)
  | obj (fields : List (List Char × Json))

/-- First-match lookup of a key in a JSON object's field list: `dict.get(key)`. -/
def jLookup : List (List Char × Json) → List Char → Option Json
  | [], _ => none
  | (k, v) :: rest, key => if k = key then some v else jLookup rest key

/-- `dict.pop(key, None)` on a (copied) field list: remove the key if present. -/
def jRemoveKey (fields : List (List Char × Json)) (key : List Char) : List (List Char × Json) :=
  fields.filter (fun kv => kv.1 != key)

/-- Python truthiness of a JSON value (`if x:`): empty string/list/dict,
zero, `False` and `None` are falsy. -/
def jTruthy : Json → Bool
  | .str s => !s.isEmpty
  | .num n => n != 0
  | .bool b => b
  | .null => false
  | .arr xs => !xs.isEmpty
  | .obj kvs => !kvs.isEmpty

/-- The double-quote character. -/
def dquote : Char := Char.ofNat 34

/-- The single-quote character. -/
def squote : Char := Char.ofNat 39

/-- Opening curly brace character. -/
def lbraceChar : Char := Char.ofNat 123

/-- Closing curly brace character. -/
def rbraceChar : Char := Char.ofNat 125

/-- Decimal digits of a natural number. -/
def natToChars (n : Nat) : List Char := Nat.toDigits 10 n

/-- Decimal rendering of an integer, as `json.dumps` / `str` print it. -/
def intToChars (n : Int) : List Char :=
  if n < 0 then '-' :: natToChars n.natAbs else natToChars n.natAbs

mutual

/-- Model of `json.dumps` on already-parsed values.  The Python call site
uses `indent=2`; this model prints compactly (`", "` / `": "` separators).
Indentation only inserts extra whitespace and does not affect any of the
substring properties proved below.  String escaping is omitted: every string
reasoned about here is alphanumeric. -/
def jsonDumps : Json → List Char
  | .str s => dquote :: s ++ [dquote]
  | .num n => intToChars n
  | .bool true => ("true").toList
  | .bool false => ("false").toList
  | .null => ("null").toList
  | .arr xs => '[' :: jsonDumpsElems xs ++ [']']
  | .obj kvs => lbraceChar :: jsonDumpsFields kvs ++ [rbraceChar]

/-- Comma-joined rendering of array elements. -/
def jsonDumpsElems : List Json → List Char
  | [] => []
  | [x] => jsonDumps x
  | x :: y :: rest => jsonDumps x ++ ',' :: ' ' :: jsonDumpsElems (y :: rest)

/-- Comma-joined rendering of object fields. -/
def jsonDumpsFields : List (List Char × Json) → List Char
  | [] => []
  | [(k, v)] => dquote :: k ++ dquote :: ':' :: ' ' :: jsonDumps v
  | (k, v) :: kv :: rest =>
      (dquote :: k ++ dquote :: ':' :: ' ' :: jsonDumps v) ++ ',' :: ' ' :: jsonDumpsFields (kv :: rest)

end

/-- Python `str()` of a JSON value, used by f-string interpolation. -/
def pyStr : Json → List Char
  | .str s => s
  | .num n => intToChars n
  | .bool true => ("True").toList
  | .bool false => ("False").toList
  | .null => ("None").toList
  | .arr xs => jsonDumps (.arr xs)
  | .obj kvs => jsonDumps (.obj kvs)

/-!
## Tool id routing (`client.py`)

`execute_tool` (line 174) and `get_tool_info` (line 239) decode a tool id
with `tool_name.split("_", 2)`; `get_all_tools_openapi` (line 151) encodes
it as `f"mcp_{conn.qualified_name}_{tool.name}"`.
-/

/-- Split a character list at the first occurrence of `sep`, returning the
part before and the part after, or `none` when `sep` does not occur. -/
def splitFirst (sep : Char) : List Char → Option (List Char × List Char)
  | [] => none
  | c :: cs =>
    if c = sep then some ([], cs)
    else
      match splitFirst sep cs with
      | none => none
      | some (a, b) => some (c :: a, b)

/-- Python `s.split(sep, 2)` for a single-character separator: split at the
first two occurrences, keeping the remainder whole.  Returns one, two or
three segments. -/
def split2 (sep : Char) (s : List Char) : List (List Char) :=
  match splitFirst sep s with
  | none => [s]
  | some (a, r) =>
    match splitFirst sep r with
    | none => [a, r]
    | some (b, r2) => [a, b, r2]

/-- The literal first segment `"mcp"` of a routed tool id. -/
def mcpSeg : List Char := ("mcp").toList

/-- Encoding of a routed tool's globally unique id,
`f"mcp_{conn.qualified_name}_{tool.name}"` (client.py line 151). -/
def encodeToolName (qualifiedName toolName : List Char) : List Char :=
  ("mcp_").toList ++ qualifiedName ++ '_' :: toolName

/-- Decoding step of `execute_tool` (client.py lines 174-178):
`parts = tool_name.split("_", 2)`; require exactly three parts with first
part `"mcp"`, else the invalid-format `ValueError`.  Returns the
`(qualified_name, original_tool_name)` pair on success. -/
def decodeToolName (toolName : List Char) : Option (List Char × List Char) :=
  match split2 '_' toolName with
  | [p0, p1, p2] => if p0 = mcpSeg then some (p1, p2) else none
  | _ => none

/-!
## MCP connection manager (`client.py`)
-/

/-- A provider-reported tool descriptor (name / description / inputSchema). -/
structure ToolDesc where
  name : List Char
  description : Option (List Char)
  inputSchema : Option Json

/-- The `MCPConnection` dataclass (client.py line 62).  The `session` field
is always `None` after connecting and is omitted. -/
structure MCPConnection where
  qualified_name : List Char
  name : List Char
  config : Json
  enabled_tools : List (List Char)
  tools : List ToolDesc

/-- The `MCPManager` registry state: `self.connections`, a dict keyed by
qualified name, modelled as an insertion-ordered association list.
(`self._sessions` is legacy cleanup bookkeeping and never read.) -/
structure MCPManager where
  connections : List (List Char × MCPConnection)

/-- First-match lookup in the connection dict. -/
def lookupConn : List (List Char × MCPConnection) → List Char → Option MCPConnection
  | [], _ => none
  | (k, c) :: rest, q => if k = q then some c else lookupConn rest q

/-- Kinds of `ValueError` raised synchronously by `execute_tool` /
`connect_server`. -/
inductive RaiseKind where
  | invalidFormat
  | notConnected
  | missingApiKey
  deriving DecidableEq

/-- Outcome of `execute_tool`: either a `ValueError` propagated to the
caller, or the returned `{"content": ..., "isError": ...}` dict. -/
inductive ExecResult where
  | raised (k : RaiseKind)
  | data (content : List Char) (isError : Bool)
  deriving DecidableEq

/-- `execute_tool` outcome together with the number of per-call network
connection attempts made (0 or 1). -/
structure ExecOutput where
  result : ExecResult
  netAttempts : Nat
  deriving DecidableEq

/-- One item of a list-shaped provider result content: it either has a
`.text` attribute, or (failing that) a `.content` attribute rendered with
`str`, or neither, in which case the whole item is rendered with `str`
(client.py lines 204-210). -/
inductive ContentItem where
  | textItem (t : List Char)
  | contentItem (c : List Char)
  | otherItem (s : List Char)
  deriving DecidableEq

/-- The `.content` attribute of a provider result: a list of items or a
scalar rendered with `str` (client.py lines 202-213). -/
inductive NetContent where
  | parts (items : List ContentItem)
  | scalar (s : List Char)
  deriving DecidableEq

/-- A successfully returned provider result: either it has a `.content`
attribute (with `getattr(result, 'isError', False)`), or it has none and the
whole result is rendered with `str` with `is_error = False`
(client.py lines 200-217). -/
inductive NetResult where
  | withContent (c : NetContent) (isError : Bool)
  | bare (s : List Char)
  deriving DecidableEq

/-- Text extracted from one content item (client.py lines 205-210). -/
def itemText : ContentItem → List Char
  | .textItem t => t
  | .contentItem c => c
  | .otherItem s => s

/-- `"\n".join(parts)` (client.py line 211). -/
def joinNewline : List (List Char) → List Char
  | [] => []
  | [x] => x
  | x :: y :: rest => x ++ '\n' :: joinNewline (y :: rest)

/-- Normalization of a provider result into the returned data dict
(client.py lines 200-222). -/
def normalizeResult : NetResult → ExecResult
  | .withContent (.parts items) e => .data (joinNewline (items.map itemText)) e
  | .withContent (.scalar s) e => .data s e
  | .bare s => .data s false

/-- The `f"Error executing tool: {str(e)}"` message head (client.py line 227). -/
def errExecHead : List Char := ("Error executing tool: ").toList

/-- The per-call network path of `execute_tool` (client.py lines 189-198):
URL construction, websocket connect, session handshake and `call_tool`,
abstracted as one external call that either returns a provider result or
raises with an error message. -/
abbrev NetFn : Type := MCPConnection → List Char → Json → Except (List Char) NetResult

/-- `MCPManager.execute_tool` (client.py lines 170-229).  `apiKey` is
whether `SMITHERY_API_KEY` is set.  Control flow, in source order: decode
the tool id (raise invalid-format), look up the connection (raise
not-connected), check the API key (raise), then run the per-call network
path inside `try`, converting any exception into an
`{"isError": True}` data result. -/
def execute_tool (apiKey : Bool) (st : MCPManager) (net : NetFn)
    (toolName : List Char) (args : Json) : ExecOutput :=
  match decodeToolName toolName with
  | none => ⟨.raised .invalidFormat, 0⟩
  | some (q, t) =>
    match lookupConn st.connections q with
    | none => ⟨.raised .notConnected, 0⟩
    | some conn =>
      if apiKey then
        match net conn t args with
        | .error e => ⟨.data (errExecHead ++ e) true, 1⟩
        | .ok r => ⟨normalizeResult r, 1⟩
      else ⟨.raised .missingApiKey, 0⟩

/-- An MCP server configuration dict as consumed by `connect_server`:
`qualifiedName`, `name`, `config`, and `enabledTools`
(`mcp_config.get("enabledTools", [])`; a missing key is the empty list). -/
structure MCPConfig where
  qualifiedName : List Char
  name : List Char
  config : Json
  enabledTools : List (List Char)

/-- Errors raised by `connect_server`. -/
inductive ConnectError where
  | missingApiKey
  | connectFailed (e : List Char)

/-- The transport handshake of `connect_server` (client.py lines 97-109):
URL construction, websocket connect, `session.initialize()` and
`list_tools()`, abstracted as one external call returning the provider's
tool list or failing. -/
abbrev HandshakeFn : Type := MCPConfig → Except (List Char) (List ToolDesc)

/-- The `MCPConnection` built after a successful handshake
(client.py lines 112-119). -/
def mkConnection (cfg : MCPConfig) (tools : List ToolDesc) : MCPConnection :=
  ⟨cfg.qualifiedName, cfg.name, cfg.config, cfg.enabledTools, tools⟩

/-- `MCPManager.connect_server` (client.py lines 79-126).  Returns the
result, the new manager state, and the number of transport handshakes
performed by this call.  Source order: cached-connection check first (return
cached, no handshake), then the `SMITHERY_API_KEY` check (raise), then the
handshake; on success cache and return the new connection, on failure
re-raise with the state unchanged. -/
def connect_server (apiKey : Bool) (hs : HandshakeFn) (st : MCPManager)
    (cfg : MCPConfig) : Except ConnectError MCPConnection × MCPManager × Nat :=
  match lookupConn st.connections cfg.qualifiedName with
  | some c => (.ok c, st, 0)
  | none =>
    if apiKey then
      match hs cfg with
      | .ok tools =>
          let c := mkConnection cfg tools
          (.ok c, ⟨st.connections ++ [(cfg.qualifiedName, c)]⟩, 1)
      | .error e => (.error (.connectFailed e), st, 1)
    else (.error .missingApiKey, st, 0)

/-!
## Agent loop (`run.py`, function `run_agent`)

The embedding covers the iteration loop (run.py lines 84-251): per
iteration, billing gate, early-stop check on the latest
assistant/tool/user message, temporary browser-state / image-context
message handling, model invocation (external), stream scanning for closing
terminal markers, and the `max_iterations` hard cap.  The pre-loop setup
(tool registration, sandbox lookup) has no bearing on the claims.
The Thread Store is modelled concretely as a list of messages; the model
invocation (`thread_manager.run_thread`) is an oracle that may rewrite the
store arbitrarily.
-/

/-- Message types appearing in the thread (run.py queries). -/
inductive MsgType where
  | user
  | assistant
  | tool
  | system
  | browserState
  | imageContext
  deriving DecidableEq

/-- A persisted thread message: id, type, content and creation timestamp.
`content` is the stored string, modelled by its `json.loads` result
(`none` when the stored string is not valid JSON and parsing raises). -/
structure Message where
  id : Nat
  mtype : MsgType
  content : Option Json
  createdAt : Nat

/-- The Supabase query pattern
`select.eq(...).order('created_at', desc=True).limit(1)`: the matching
message with the greatest `created_at` (earliest stored row wins a tie). -/
def latestWith (p : Message → Bool) : List Message → Option Message
  | [] => none
  | m :: rest =>
    match latestWith p rest with
    | none => if p m then some m else none
    | some a =>
      if p m then (if a.createdAt > m.createdAt then some a else some m)
      else some a

/-- Filter of the early-stop query (run.py line 103):
`.in_('type', ['assistant', 'tool', 'user'])`. -/
def isUAT (m : Message) : Bool :=
  match m.mtype with
  | .assistant => true
  | .tool => true
  | .user => true
  | _ => false

/-- Whether a message is of type `assistant`. -/
def isAssistant (m : Message) : Bool :=
  match m.mtype with
  | .assistant => true
  | _ => false

/-- Whether a message is of type `browser_state`. -/
def isBrowserState (m : Message) : Bool :=
  match m.mtype with
  | .browserState => true
  | _ => false

/-- Whether a message is of type `image_context`. -/
def isImageContext (m : Message) : Bool :=
  match m.mtype with
  | .imageContext => true
  | _ => false

/-- One block of the temporary (one-shot) user message: a text block or an
image-url block (run.py lines 128-138, 156-165). -/
inductive ContentBlock where
  | text (t : List Char)
  | imageUrl (url : List Char)

/-- The temporary one-shot message passed to `run_thread` and never
persisted: `{"role": "user", "content": blocks}`. -/
structure TempMessage where
  blocks : List ContentBlock

/-- Key `"screenshot_base64"`. -/
def screenshotKey : List Char := ("screenshot_base64").toList

/-- Key `"screenshot_url"`. -/
def screenshotUrlKey : List Char := ("screenshot_url").toList

/-- Key `"screenshot_url_base64"`. -/
def screenshotUrlB64Key : List Char := ("screenshot_url_base64").toList

/-- Text head of the browser-state text block (run.py line 130). -/
def browserStateHead : List Char :=
  ("The following is the current state of the browser:\n").toList

/-- Url head `"data:image/jpeg;base64,"` of the screenshot image block
(run.py line 136). -/
def dataJpegHead : List Char := ("data:image/jpeg;base64,").toList

/-- Browser-state handling (run.py lines 116-144).  Fetch the latest
`browser_state` message; inside `try`: parse its JSON content (a parse
failure, or content that is not a JSON object so that `.get` raises,
jumps to `except` with nothing appended and — crucially — without reaching
the delete statement), strip the screenshot keys from a copy, append a text
block when the remainder is non-empty, append an image block when a truthy
`screenshot_base64` is present (otherwise only a warning is logged), and
delete the source message as the last statement of the `try` block.
Returns the produced blocks and the updated message store. -/
def handleBrowserState (db : List Message) : List ContentBlock × List Message :=
  match latestWith isBrowserState db with
  | none => ([], db)
  | some m =>
    match m.content with
    | some (.obj fields) =>
      let screenshot := jLookup fields screenshotKey
      let textFields :=
        jRemoveKey (jRemoveKey (jRemoveKey fields screenshotKey) screenshotUrlKey)
          screenshotUrlB64Key
      let textBlocks :=
        if !textFields.isEmpty then
          [ContentBlock.text (browserStateHead ++ jsonDumps (.obj textFields))]
        else []
      let shotBlocks :=
        match screenshot with
        | some v => if jTruthy v then [ContentBlock.imageUrl (dataJpegHead ++ pyStr v)] else []
        | none => []
      (textBlocks ++ shotBlocks, db.filter (fun x => x.id != m.id))
    | _ => ([], db)

/-- Text head of the image-context text block (run.py line 158). -/
def imageCtxHead : List Char :=
  ("Here is the image you requested to see: ").toList ++ [squote]

/-- Key `"base64"`. -/
def base64Key : List Char := ("base64").toList

/-- Key `"mime_type"`. -/
def mimeTypeKey : List Char := ("mime_type").toList

/-- Key `"file_path"`. -/
def filePathKey : List Char := ("file_path").toList

/-- Default file path `"unknown file"` (run.py line 153). -/
def unknownFile : List Char := ("unknown file").toList

/-- Image-context handling (run.py lines 146-171), mirroring the
browser-state structure: parse, read `base64` / `mime_type` / `file_path`,
append a text block and an image block when both `base64` and `mime_type`
are truthy (else only a warning), and delete the source message as the last
statement of the `try` block. -/
def handleImageContext (db : List Message) : List ContentBlock × List Message :=
  match latestWith isImageContext db with
  | none => ([], db)
  | some m =>
    match m.content with
    | some (.obj fields) =>
      let b64 := jLookup fields base64Key
      let mime := jLookup fields mimeTypeKey
      let fp : List Char :=
        match jLookup fields filePathKey with
        | some v => pyStr v
        | none => unknownFile
      let blocks :=
        match b64, mime with
        | some bv, some mv =>
          if jTruthy bv && jTruthy mv then
            [ContentBlock.text (imageCtxHead ++ fp ++ [squote]),
             ContentBlock.imageUrl (("data:").toList ++ pyStr mv ++ (";base64,").toList ++ pyStr bv)]
          else []
        | _, _ => []
      (blocks, db.filter (fun x => x.id != m.id))
    | _ => ([], db)

/-- Temporary message assembly (run.py lines 111-177): browser state first,
then image context, then wrap the collected blocks into a one-shot user
message when any block was produced. -/
def buildTemporaryMessage (db : List Message) : Option TempMessage × List Message :=
  let b := handleBrowserState db
  let i := handleImageContext b.2
  (if (b.1 ++ i.1).isEmpty then none else some ⟨b.1 ++ i.1⟩, i.2)

/-!
### Stream scanning for terminal markers (run.py lines 210-251)
-/

/-- The three terminal actions. -/
inductive Marker where
  | ask
  | complete
  | takeover
  deriving DecidableEq

/-- Whether `n` is a prefix of `h` (character lists). -/
def listStartsWith : List Char → List Char → Bool
  | [], _ => true
  | _ :: _, [] => false
  | a :: as, b :: bs => a == b && listStartsWith as bs

/-- Whether `n` occurs as a contiguous substring of `h`: the Python `in`
operator on strings. -/
def containsSub (n : List Char) : List Char → Bool
  | [] => n.isEmpty
  | c :: rest => listStartsWith n (c :: rest) || containsSub n rest

/-- Closing delimiter `"</ask>"`. -/
def closeAsk : List Char := ("</ask>").toList

/-- Closing delimiter `"</complete>"`. -/
def closeComplete : List Char := ("</complete>").toList

/-- Closing delimiter `"</web-browser-takeover>"`. -/
def closeTakeover : List Char := ("</web-browser-takeover>").toList

/-- The closing delimiter registered for each terminal action. -/
def closingOf : Marker → List Char
  | .ask => closeAsk
  | .complete => closeComplete
  | .takeover => closeTakeover

/-- Terminal-marker scan of one assistant text fragment
(run.py lines 230-238): an outer check that some closing delimiter occurs,
then an `if`/`elif` chain trying `</ask>`, then `</complete>`, then
`</web-browser-takeover>`. -/
def detectMarker (t : List Char) : Option Marker :=
  if containsSub closeAsk t || containsSub closeComplete t || containsSub closeTakeover t then
    some (if containsSub closeAsk t then Marker.ask
          else if containsSub closeComplete t then Marker.complete
          else Marker.takeover)
  else none

/-- The content of a streamed chunk: either a JSON string (modelled by its
`json.loads` result, `none` when parsing raises `JSONDecodeError`) or an
already-structured value (run.py lines 220-224). -/
inductive ChunkContent where
  | jstr (parsed : Option Json)
  | jval (v : Json)

/-- A streamed chunk dict: its `type` value (when the key is present) and
its `content` value (when the key is present). -/
structure Chunk where
  ctype : Option (List Char)
  ccontent : Option ChunkContent

/-- The string `"assistant"`. -/
def assistantStr : List Char := ("assistant").toList

/-- Key `"content"`. -/
def contentKey : List Char := ("content").toList

/-- Per-chunk marker tracking (run.py lines 213-244): only chunks with
`type == 'assistant'` and a `content` key are inspected; the content is
parsed (a `JSONDecodeError` or an `.get` on a non-dict is caught and
skipped); the nested `content` text defaults to `""` and is only scanned
when it is a string; a detected marker overwrites `last_tool_call`,
otherwise the previous value is kept. -/
def processChunk (last : Option Marker) (c : Chunk) : Option Marker :=
  if c.ctype = some assistantStr then
    match c.ccontent with
    | none => last
    | some cc =>
      match (match cc with | .jstr p => p | .jval v => some v) with
      | none => last
      | some (.obj fields) =>
        match (match jLookup fields contentKey with | some v => v | none => .str []) with
        | .str t =>
          match detectMarker t with
          | some m => some m
          | none => last
        | _ => last
      | some _ => last
  else last

/-!
### The iteration loop (run.py lines 84-251)
-/

/-- Events yielded by `run_agent` to its consumer. -/
inductive AgentEvent where
  | billingStopped
  | errorResponse
  | chunk (c : Chunk)

/-- The response of `thread_manager.run_thread`: either an explicit error
status dict, or a lazy stream of chunks (run.py lines 206-213). -/
inductive InvokeResponse where
  | errorStatus
  | stream (chunks : List Chunk)

/-- The model-invocation collaborator: given the iteration number, the
current message store and the optional temporary message, it returns a
response and may rewrite the store (run.py writes assistant/tool messages
through `run_thread`). -/
abbrev InvokeFn : Type :=
  Nat → List Message → Option TempMessage → InvokeResponse × List Message

/-- Result of a run: the yielded events, the number of model invocations
issued, and the final message store. -/
structure LoopResult where
  events : List AgentEvent
  invocations : Nat
  finalDb : List Message

/-- One pass of the `while continue_execution and iteration_count <
max_iterations` loop (run.py lines 87-251), recursing on the remaining
iteration budget (`fuel = max_iterations - iteration_count`).  Source
order inside an iteration: billing gate (yield a stopped status and
break), early-stop check on the latest assistant/tool/user message (break
silently), temporary-message assembly, model invocation (an error status
is yielded once and breaks), stream consumption (every chunk is yielded
while `last_tool_call` is tracked), and the terminal-marker stop. -/
def agentIter (billing : Nat → Bool) (invoke : InvokeFn) :
    Nat → Nat → List Message → LoopResult
  | 0, _, db => ⟨[], 0, db⟩
  | fuel + 1, count, db =>
    if billing (count + 1) = false then ⟨[AgentEvent.billingStopped], 0, db⟩
    else if (latestWith isUAT db).any isAssistant then ⟨[], 0, db⟩
    else
      match invoke (count + 1) (buildTemporaryMessage db).2 (buildTemporaryMessage db).1 with
      | (.errorStatus, d2) => ⟨[AgentEvent.errorResponse], 1, d2⟩
      | (.stream cs, d2) =>
        if (cs.foldl processChunk none).isSome then ⟨cs.map AgentEvent.chunk, 1, d2⟩
        else
          let r := agentIter billing invoke fuel (count + 1) d2
          ⟨cs.map AgentEvent.chunk ++ r.events, r.invocations + 1, r.finalDb⟩

/-- `run_agent` from its loop entry (run.py line 84): iteration count
starts at 0 and the loop runs while it is below `max_iterations`. -/
def run_agent (billing : Nat → Bool) (invoke : InvokeFn) (maxIterations : Nat)
    (db : List Message) : LoopResult :=
  agentIter billing invoke maxIterations 0 db

/-- A store whose latest assistant/tool/user message (if any) is not an
assistant message: the early-stop check never fires on it. -/
def noAssistLatest (db : List Message) : Prop :=
  ∀ m, latestWith isUAT db = some m → m.mtype ≠ MsgType.assistant

/-- Key `"mapX"` of the C8 scenario payload. -/
def mapXKey : List Char := ("mapX").toList

/-- The screenshot payload `"AAA"` of the C8 scenario. -/
def aaaStr : List Char := ("AAA").toList

/-- A thread holding exactly one `browser_state` message with content
`{"screenshot_base64": "AAA", "mapX": 1}`. -/
def c8Db : List Message :=
  [⟨1, MsgType.browserState,
    some (Json.obj [(screenshotKey, Json.str aaaStr), (mapXKey, Json.num 1)]), 0⟩]

/-- The text block produced for that thread: the browser-state head plus the
dump of the remaining (non-screenshot) fields. -/
def c8Text : List Char := browserStateHead ++ jsonDumps (Json.obj [(mapXKey, Json.num 1)])

/-- The image block url produced for that thread. -/
def c8Url : List Char := dataJpegHead ++ aaaStr

/-!
## Helper lemmas
-/

theorem splitFirst_append_notMem (sep : Char) (q t : List Char) (h : sep ∉ q) :
    splitFirst sep (q ++ sep :: t) = some (q, t) := by
  induction q with
  | nil => simp [splitFirst]
  | cons c cs ih =>
    have hc : ¬ c = sep := fun e => h (e ▸ List.mem_cons_self c cs)
    have hcs : sep ∉ cs := fun hm => h (List.mem_cons_of_mem c hm)
    simp [splitFirst, hc, ih hcs]

theorem decode_none_of_bad (name : List Char)
    (h : (split2 '_' name).length < 3 ∨ (split2 '_' name).headD [] ≠ mcpSeg) :
    decodeToolName name = none := by
  unfold decodeToolName
  split
  next p0 p1 p2 heq =>
    rw [heq] at h
    rcases h with h | h
    · simp at h
    · simp only [List.headD] at h
      simp [h]
  next => rfl

theorem lookupConn_append_self (xs : List (List Char × MCPConnection)) (q : List Char)
    (c : MCPConnection) (h : lookupConn xs q = none) :
    lookupConn (xs ++ [(q, c)]) q = some c := by
  induction xs with
  | nil => simp [lookupConn]
  | cons kv rest ih =>
    obtain ⟨k, c0⟩ := kv
    by_cases hk : k = q
    · simp [lookupConn, hk] at h
    · simp only [lookupConn, hk, List.cons_append, if_false] at h ⊢
      exact ih h

theorem latestWith_mem (p : Message → Bool) :
    ∀ (db : List Message) (a : Message), latestWith p db = some a → a ∈ db ∧ p a = true := by
  intro db
  induction db with
  | nil => intro a h; simp [latestWith] at h
  | cons m rest ih =>
    intro a h
    cases hr : latestWith p rest with
    | none =>
      simp only [latestWith, hr] at h
      by_cases hp : p m
      · rw [if_pos hp] at h
        injection h with h2
        subst h2
        exact ⟨List.mem_cons_self m rest, hp⟩
      · rw [if_neg hp] at h
        simp at h
    | some b =>
      simp only [latestWith, hr] at h
      obtain ⟨hb1, hb2⟩ := ih b hr
      by_cases hp : p m
      · rw [if_pos hp] at h
        by_cases hgt : b.createdAt > m.createdAt
        · rw [if_pos hgt] at h
          injection h with h2
          subst h2
          exact ⟨List.mem_cons_of_mem m hb1, hb2⟩
        · rw [if_neg hgt] at h
          injection h with h2
          subst h2
          exact ⟨List.mem_cons_self m rest, hp⟩
      · rw [if_neg hp] at h
        injection h with h2
        subst h2
        exact ⟨List.mem_cons_of_mem m hb1, hb2⟩

theorem latestWith_strictMax (p : Message → Bool) :
    ∀ (db : List Message) (m : Message), m ∈ db → p m = true →
      (∀ x ∈ db, x ≠ m → x.createdAt < m.createdAt) →
      latestWith p db = some m := by
  intro db
  induction db with
  | nil => intro m hm _ _; simp at hm
  | cons x rest ih =>
    intro m hm hp hlt
    rcases List.mem_cons.mp hm with rfl | hmr
    · cases hr : latestWith p rest with
      | none => simp [latestWith, hr, hp]
      | some a =>
        obtain ⟨ha1, _⟩ := latestWith_mem p rest a hr
        have hng : ¬ a.createdAt > m.createdAt := by
          by_cases hax : a = m
          · subst hax; omega
          · have := hlt a (List.mem_cons_of_mem _ ha1) hax
            omega
        simp [latestWith, hr, hp, hng]
    · have hrest : latestWith p rest = some m :=
        ih m hmr hp (fun y hy hne => hlt y (List.mem_cons_of_mem _ hy) hne)
      by_cases hpx : p x
      · by_cases hxm : x = m
        · subst hxm
          simp [latestWith, hrest, hpx]
        · have hlt2 : x.createdAt < m.createdAt := hlt x (List.mem_cons_self _ _) hxm
          simp [latestWith, hrest, hpx, hlt2]
      · simp [latestWith, hrest, hpx]

theorem isAssistant_eq_false (m : Message) (h : m.mtype ≠ MsgType.assistant) :
    isAssistant m = false := by
  unfold isAssistant
  cases hm : m.mtype <;> simp_all

theorem agentIter_full (billing : Nat → Bool) (invoke : InvokeFn)
    (hb : ∀ i, billing i = true)
    (hinv : ∀ i d t, ∃ cs d', invoke i d t = (InvokeResponse.stream cs, d') ∧
        cs.foldl processChunk none = none ∧ noAssistLatest d') :
    ∀ (fuel count : Nat) (db : List Message), noAssistLatest db →
      (agentIter billing invoke fuel count db).invocations = fuel ∧
      ∀ e ∈ (agentIter billing invoke fuel count db).events, ∃ c, e = AgentEvent.chunk c := by
  intro fuel
  induction fuel with
  | zero =>
    intro count db _
    exact ⟨rfl, by intro e he; simp [agentIter] at he⟩
  | succ n ih =>
    intro count db hdb
    have hbt : billing (count + 1) = true := hb (count + 1)
    have hstop : (latestWith isUAT db).any isAssistant = false := by
      cases hl : latestWith isUAT db with
      | none => rfl
      | some m => simp [Option.any, isAssistant_eq_false m (hdb m hl)]
    obtain ⟨cs, d', heq, hfold, hna⟩ :=
      hinv (count + 1) (buildTemporaryMessage db).2 (buildTemporaryMessage db).1
    obtain ⟨ih1, ih2⟩ := ih (count + 1) d' hna
    constructor
    · simp [agentIter, hbt, hstop, heq, hfold, ih1]
    · intro e he
      simp only [agentIter, hbt, hstop, heq, hfold] at he
      simp at he
      rcases he with ⟨c, _, rfl⟩ | he
      · exact ⟨c, rfl⟩
      · exact ih2 e he

/-!
## Claim theorems
-/

/-- C1: for every `qualifiedName` containing no underscore and every
`toolName` (which may contain underscores), decoding the encoded tool id
`"mcp_" + qualifiedName + "_" + toolName` by splitting on the first two
underscores into exactly three segments yields back the original pair. -/
theorem c1_encode_decode_roundtrip (q t : List Char) (h : '_' ∉ q) :
    decodeToolName (encodeToolName q t) = some (q, t) := by
  have h1 : splitFirst '_' (q ++ '_' :: t) = some (q, t) :=
    splitFirst_append_notMem '_' q t h
  have e1 : encodeToolName q t = ['m', 'c', 'p'] ++ '_' :: (q ++ '_' :: t) := by
    simp [encodeToolName]
  have h2 : splitFirst '_' (encodeToolName q t) = some (['m', 'c', 'p'], q ++ '_' :: t) := by
    rw [e1]
    exact splitFirst_append_notMem '_' ['m', 'c', 'p'] _ (by decide)
  simp only [decodeToolName, split2, h2, h1]
  rw [if_pos (by decide)]

/-- C1 witness: the round trip at `qualifiedName = "exa"`,
`toolName = "web_search"`. -/
theorem c1_encode_decode_roundtrip_check :
    decodeToolName (encodeToolName (("exa").toList) (("web_search").toList))
      = some ((("exa").toList), (("web_search").toList)) :=
  c1_encode_decode_roundtrip (("exa").toList) (("web_search").toList) (by decide)

/-- C2 (amended): a tool id with fewer than three segments under the
split-on-first-two-underscores, or whose first segment is not `"mcp"`,
makes `execute_tool` raise the invalid-format `ValueError` synchronously,
with no network connection attempt. -/
theorem c2_invalid_format_no_network (k : Bool) (st : MCPManager) (net : NetFn)
    (name : List Char) (args : Json)
    (h : (split2 '_' name).length < 3 ∨ (split2 '_' name).headD [] ≠ mcpSeg) :
    execute_tool k st net name args = ⟨ExecResult.raised RaiseKind.invalidFormat, 0⟩ := by
  unfold execute_tool
  rw [decode_none_of_bad name h]

/-- C2 witness: `"exa_search"` has only two segments, so `execute_tool`
raises the invalid-format error without a network attempt. -/
theorem c2_invalid_format_no_network_check :
    execute_tool true ⟨[]⟩ (fun _ _ _ => Except.error []) (("exa_search").toList) Json.null
      = ⟨ExecResult.raised RaiseKind.invalidFormat, 0⟩ :=
  c2_invalid_format_no_network true ⟨[]⟩ (fun _ _ _ => Except.error [])
    (("exa_search").toList) Json.null (Or.inl (by decide))

/-- C2 counterexample: the claim's particular input `"mcp_exa_web_search"`
does NOT have fewer than three segments — `split("_", 2)` yields the three
segments `mcp`, `exa`, `web_search` — and on a manager with no connected
servers `execute_tool` raises the server-not-connected `ValueError`, not the
invalid-format one (still with no network attempt). -/
theorem c2_exa_web_search_counterexample :
    (split2 '_' (("mcp_exa_web_search").toList)).length = 3 ∧
    execute_tool true ⟨[]⟩ (fun _ _ _ => Except.error [])
        (("mcp_exa_web_search").toList) Json.null
      = ⟨ExecResult.raised RaiseKind.notConnected, 0⟩ :=
  ⟨rfl, rfl⟩

/-- C4: once the tool id is decoded, the target connection found and the
API key present, any exception raised by the per-call connection /
handshake / tool-invocation path is converted into the data result
`{"content": "Error executing tool: <e>", "isError": True}` and never
propagated to the caller. -/
theorem c4_failures_returned_as_data (st : MCPManager) (net : NetFn)
    (name q t : List Char) (args : Json) (conn : MCPConnection) (e : List Char)
    (hdec : decodeToolName name = some (q, t))
    (hconn : lookupConn st.connections q = some conn)
    (hnet : net conn t args = Except.error e) :
    execute_tool true st net name args
      = ⟨ExecResult.data (errExecHead ++ e) true, 1⟩ := by
  simp [execute_tool, hdec, hconn, hnet]

/-- C4 witness: a failing network path on a connected server `"exa"`. -/
theorem c4_failures_returned_as_data_check :
    execute_tool true
        ⟨[((("exa").toList), ⟨(("exa").toList), (("Exa").toList), Json.null, [], []⟩)]⟩
        (fun _ _ _ => Except.error (("boom").toList))
        (("mcp_exa_search").toList) Json.null
      = ⟨ExecResult.data (errExecHead ++ (("boom").toList)) true, 1⟩ :=
  c4_failures_returned_as_data _ _ _ (("exa").toList) (("search").toList) Json.null
    ⟨(("exa").toList), (("Exa").toList), Json.null, [], []⟩ (("boom").toList) rfl rfl rfl

/-- C10: a well-formed tool id whose decoded qualified name has no cached
connection makes `execute_tool` raise the not-connected `ValueError`
synchronously — with no network connection attempt (hence before any
provider URL or connection is built) and not as an `isError` data result. -/
theorem c10_not_connected_raises (k : Bool) (st : MCPManager) (net : NetFn)
    (name q t : List Char) (args : Json)
    (hdec : decodeToolName name = some (q, t))
    (hconn : lookupConn st.connections q = none) :
    execute_tool k st net name args = ⟨ExecResult.raised RaiseKind.notConnected, 0⟩ := by
  simp [execute_tool, hdec, hconn]

/-- C10 witness: `"mcp_exa_search"` against an empty connection cache. -/
theorem c10_not_connected_raises_check :
    execute_tool true ⟨[]⟩ (fun _ _ _ => Except.error []) (("mcp_exa_search").toList) Json.null
      = ⟨ExecResult.raised RaiseKind.notConnected, 0⟩ :=
  c10_not_connected_raises true ⟨[]⟩ (fun _ _ _ => Except.error [])
    (("mcp_exa_search").toList) (("exa").toList) (("search").toList) Json.null rfl rfl

/-- C9: `connect_server` is idempotent per qualified name: starting from a
state with no cached connection for `cfg.qualifiedName` and a handshake that
succeeds, the first call performs exactly one transport handshake and caches
the new connection, and the second call performs zero handshakes, returns
that cached connection, and leaves the cache unchanged. -/
theorem c9_connect_server_idempotent (hs : HandshakeFn) (st : MCPManager)
    (cfg : MCPConfig) (tools : List ToolDesc)
    (hfresh : lookupConn st.connections cfg.qualifiedName = none)
    (hok : hs cfg = Except.ok tools) :
    connect_server true hs st cfg
      = (.ok (mkConnection cfg tools),
         ⟨st.connections ++ [(cfg.qualifiedName, mkConnection cfg tools)]⟩, 1) ∧
    connect_server true hs ⟨st.connections ++ [(cfg.qualifiedName, mkConnection cfg tools)]⟩ cfg
      = (.ok (mkConnection cfg tools),
         ⟨st.connections ++ [(cfg.qualifiedName, mkConnection cfg tools)]⟩, 0) := by
  constructor
  · unfold connect_server
    rw [hfresh]
    simp [hok]
  · unfold connect_server
    rw [lookupConn_append_self _ _ _ hfresh]

/-- C9 witness: connecting twice to `"exa"` from an empty manager. -/
theorem c9_connect_server_idempotent_check :
    connect_server true (fun _ => Except.ok []) ⟨[]⟩ ⟨(("exa").toList), (("Exa").toList), Json.null, []⟩
      = (.ok (mkConnection ⟨(("exa").toList), (("Exa").toList), Json.null, []⟩ []),
         ⟨[] ++ [((("exa").toList),
            mkConnection ⟨(("exa").toList), (("Exa").toList), Json.null, []⟩ [])]⟩, 1) ∧
    connect_server true (fun _ => Except.ok [])
        ⟨[] ++ [((("exa").toList),
            mkConnection ⟨(("exa").toList), (("Exa").toList), Json.null, []⟩ [])]⟩
        ⟨(("exa").toList), (("Exa").toList), Json.null, []⟩
      = (.ok (mkConnection ⟨(("exa").toList), (("Exa").toList), Json.null, []⟩ []),
         ⟨[] ++ [((("exa").toList),
            mkConnection ⟨(("exa").toList), (("Exa").toList), Json.null, []⟩ [])]⟩, 0) :=
  c9_connect_server_idempotent (fun _ => Except.ok []) ⟨[]⟩
    ⟨(("exa").toList), (("Exa").toList), Json.null, []⟩ [] rfl rfl

/-- C3: when the most-recently-created message of the thread (of any type)
has type `assistant`, the early-stop check fires before the model is called
and the run ends with zero model invocations, for every billing gate, model
invocation and iteration cap. -/
theorem c3_early_stop_no_invocation (billing : Nat → Bool) (invoke : InvokeFn)
    (maxIterations : Nat) (db : List Message) (m : Message)
    (hm : m ∈ db) (hty : m.mtype = MsgType.assistant)
    (hmax : ∀ x ∈ db, x ≠ m → x.createdAt < m.createdAt) :
    (run_agent billing invoke maxIterations db).invocations = 0 := by
  have hl : latestWith isUAT db = some m :=
    latestWith_strictMax isUAT db m hm (by simp [isUAT, hty]) hmax
  unfold run_agent
  cases maxIterations with
  | zero => rfl
  | succ n =>
    by_cases hb : billing 1 = false
    · simp [agentIter, hb]
    · simp [agentIter, hb, hl, isAssistant, hty]

/-- C3 witness: a two-message thread whose newest message is an assistant
message; the run issues no model invocation. -/
theorem c3_early_stop_no_invocation_check :
    (run_agent (fun _ => true) (fun _ d _ => (InvokeResponse.stream [], d)) 5
      [⟨1, MsgType.user, none, 1⟩, ⟨2, MsgType.assistant, none, 4⟩]).invocations = 0 := by
  apply c3_early_stop_no_invocation _ _ _ _ ⟨2, MsgType.assistant, none, 4⟩
  · exact List.mem_cons_of_mem _ (List.mem_cons_self _ _)
  · rfl
  · intro x hx hne
    rcases List.mem_cons.mp hx with rfl | hx2
    · decide
    · rcases List.mem_cons.mp hx2 with rfl | hx3
      · exact absurd rfl hne
      · simp at hx3

/-- C5: with `maxIterations = N`, a billing gate that always allows the run,
a thread whose latest assistant/tool/user message is never an assistant
message at an iteration boundary, and model invocations that always return
a stream containing no terminal marker, the loop performs exactly N model
invocations and ends the event sequence silently: every yielded event is a
forwarded chunk (no billing-stop and no error event). -/
theorem c5_max_iterations_cap (billing : Nat → Bool) (invoke : InvokeFn) (N : Nat)
    (db : List Message) (_hN : 1 ≤ N) (hb : ∀ i, billing i = true)
    (hdb : noAssistLatest db)
    (hinv : ∀ i d t, ∃ cs d', invoke i d t = (InvokeResponse.stream cs, d') ∧
        cs.foldl processChunk none = none ∧ noAssistLatest d') :
    (run_agent billing invoke N db).invocations = N ∧
    ∀ e ∈ (run_agent billing invoke N db).events, ∃ c, e = AgentEvent.chunk c :=
  agentIter_full billing invoke hb hinv N 0 db hdb

/-- C5 witness: `N = 2` on an empty thread with a marker-free stream. -/
theorem c5_max_iterations_cap_check :
    (run_agent (fun _ => true) (fun _ _ _ => (InvokeResponse.stream [], [])) 2 []).invocations = 2 ∧
    ∀ e ∈ (run_agent (fun _ => true) (fun _ _ _ => (InvokeResponse.stream [], [])) 2 []).events,
      ∃ c, e = AgentEvent.chunk c :=
  c5_max_iterations_cap (fun _ => true) (fun _ _ _ => (InvokeResponse.stream [], [])) 2 []
    (by decide) (fun _ => rfl) (fun m h => by simp [latestWith] at h)
    (fun i d t => ⟨[], [], rfl, rfl, fun m h => by simp [latestWith] at h⟩)

/-- C6 (amended): when the latest `browser_state` message parses as a JSON
object, the source message is deleted after reading — it is removed from
the store and no message with its id survives.  (On a parse failure the
delete statement is never reached; see the counterexample.) -/
theorem c6_delete_on_parse_success (db : List Message) (m : Message)
    (fields : List (List Char × Json))
    (hl : latestWith isBrowserState db = some m)
    (hc : m.content = some (Json.obj fields)) :
    (handleBrowserState db).2 = db.filter (fun x => x.id != m.id) ∧
    ∀ x ∈ (handleBrowserState db).2, x.id ≠ m.id := by
  have h2 : (handleBrowserState db).2 = db.filter (fun x => x.id != m.id) := by
    simp [handleBrowserState, hl, hc]
  refine ⟨h2, ?_⟩
  intro x hx
  rw [h2] at hx
  simpa using List.of_mem_filter hx

/-- C6 witness: a single well-formed `browser_state` message is deleted by
the build. -/
theorem c6_delete_on_parse_success_check :
    (handleBrowserState [⟨1, MsgType.browserState, some (Json.obj []), 0⟩]).2
      = [⟨1, MsgType.browserState, some (Json.obj []), 0⟩].filter
          (fun x => x.id != (⟨1, MsgType.browserState, some (Json.obj []), 0⟩ : Message).id) ∧
    ∀ x ∈ (handleBrowserState [⟨1, MsgType.browserState, some (Json.obj []), 0⟩]).2,
      x.id ≠ (⟨1, MsgType.browserState, some (Json.obj []), 0⟩ : Message).id :=
  c6_delete_on_parse_success _ _ [] rfl rfl

/-- C6 counterexample: a `browser_state` message whose content is not valid
JSON (so `json.loads` raises) is NOT deleted — the exception handler is
entered before the delete statement, the store is unchanged, and the next
iteration reads the very same message again. -/
theorem c6_not_deleted_on_parse_failure :
    (handleBrowserState [⟨7, MsgType.browserState, none, 0⟩]).2
      = [⟨7, MsgType.browserState, none, 0⟩] ∧
    latestWith isBrowserState (handleBrowserState [⟨7, MsgType.browserState, none, 0⟩]).2
      = some ⟨7, MsgType.browserState, none, 0⟩ :=
  ⟨rfl, rfl⟩

/-- C7: the stream scan registers a terminal action only on the closing
delimiter of `ask`, `complete` or `web-browser-takeover` (a registered
marker implies its closing delimiter occurs in the text, so opening markers
alone never register); an assistant chunk whose text ends with
`</complete>` observes `complete`; and when several closing markers occur
in one fragment, `ask` is evaluated before `complete` before `takeover`. -/
theorem c7_closing_marker_detection :
    (∀ t m, detectMarker t = some m → containsSub (closingOf m) t = true) ∧
    (processChunk none ⟨some assistantStr,
        some (ChunkContent.jval (Json.obj [(contentKey, Json.str (("Done.</complete>").toList))]))⟩
      = some Marker.complete) ∧
    (∀ t, containsSub closeAsk t = true → detectMarker t = some Marker.ask) ∧
    (∀ t, containsSub closeAsk t = false → containsSub closeComplete t = true →
        detectMarker t = some Marker.complete) ∧
    (∀ t, containsSub closeAsk t = false → containsSub closeComplete t = false →
        containsSub closeTakeover t = true → detectMarker t = some Marker.takeover) := by
  refine ⟨?_, rfl, ?_, ?_, ?_⟩
  · intro t m h
    cases ha : containsSub closeAsk t with
    | true =>
      simp [detectMarker, ha] at h
      subst h
      simp [closingOf, ha]
    | false =>
      cases hb : containsSub closeComplete t with
      | true =>
        simp [detectMarker, ha, hb] at h
        subst h
        simp [closingOf, hb]
      | false =>
        cases hc : containsSub closeTakeover t with
        | true =>
          simp [detectMarker, ha, hb, hc] at h
          subst h
          simp [closingOf, hc]
        | false => simp [detectMarker, ha, hb, hc] at h
  · intro t h
    simp [detectMarker, h]
  · intro t h1 h2
    simp [detectMarker, h1, h2]
  · intro t h1 h2 h3
    simp [detectMarker, h1, h2, h3]

/-- C7 witness: a fragment holding both `</ask>` and `</complete>` registers
`ask` (priority), exercising the priority conjunct at a concrete input. -/
theorem c7_closing_marker_detection_check :
    detectMarker (("a</ask>b</complete>").toList) = some Marker.ask :=
  c7_closing_marker_detection.2.2.1 (("a</ask>b</complete>").toList) (by decide)

/-- C8: on a thread with exactly one `browser_state` message of content
`{"screenshot_base64": "AAA", "mapX": 1}`, the context build produces a
text block whose text contains `mapX` and not the screenshot value `AAA`,
plus exactly one image block referencing `AAA`, and the source message no
longer exists afterward. -/
theorem c8_browser_state_scenario :
    (buildTemporaryMessage c8Db).1
      = some ⟨[ContentBlock.text c8Text, ContentBlock.imageUrl c8Url]⟩ ∧
    containsSub mapXKey c8Text = true ∧
    containsSub aaaStr c8Text = false ∧
    containsSub aaaStr c8Url = true ∧
    (buildTemporaryMessage c8Db).2 = [] :=
  ⟨rfl, rfl, rfl, rfl, rfl⟩
